import Mathlib

/-!
# Verification of the SPIRAL word-game environments

Shallow embedding of the two word-game environments of this repository:

* `src/spiral/envs/SpellingBee/env.py` (`SpellingBeeEnv`), the
  letter-constrained variant, and
* `src/spiral/envs/WordChains/env.py` (`WordChainsEnv`), the chain variant,

together with theorems settling the claims about their shared
parse / validate / try-limit adjudication pipeline.

Conventions of the embedding:

* Words and raw actions are `String`s; the vocabulary oracle
  (`EnglishDictionary.is_english_word`, an external collaborator) is a
  parameter `vocab : String → Bool`.
* The random choices made at reset time (the sampled allowed-letter set of
  the spelling variant, the seed word of the chain variant) are parameters
  of the reset/initial-state functions.
* `word_history` is stored newest-first (`word :: history`), so the Python
  `word_history[-1]` is the head of the list and `append` is cons.
* The framework turn rotation (`textarena`'s `State.step`): the current
  player advances on an accepted move and is unchanged on a rejected one.
-/

/-! ## Move parser

Both environments extract the candidate word with
`re.search(r"\[(\w+)\]", action)` and lowercase the captured group.
For the ASCII inputs these games deal in, `\w` is `[A-Za-z0-9_]`.
`re.search` returns the leftmost match: at each position, a match requires
a literal bracket, then a maximal nonempty run of word characters, then a
closing bracket (greedy `\w+` cannot backtrack into a successful match
because a word character is never a closing bracket).
-/

/-- A Python `\w` word character (ASCII): letter, digit or underscore. -/
def isWordChar (c : Char) : Bool :=
  (('a' ≤ c && c ≤ 'z') || ('A' ≤ c && c ≤ 'Z') || ('0' ≤ c && c ≤ '9') || c = '_')

/-- Split a character list into its maximal leading run of word characters
and the rest. -/
def takeWordRun : List Char → List Char × List Char
  | [] => ([], [])
  | c :: cs =>
    if isWordChar c then
      let p := takeWordRun cs
      (c :: p.1, p.2)
    else ([], c :: cs)

/-- Leftmost occurrence of a bracketed token of word characters, as
`re.search` finds it: on failure at a position the scan advances by one
character. -/
def findToken : List Char → Option (List Char)
  | [] => none
  | c :: cs =>
    if c = '[' then
      let p := takeWordRun cs
      match p.1, p.2 with
      | [], _ => findToken cs
      | tok, ']' :: _ => some tok
      | _ :: _, _ => findToken cs
    else findToken cs

/-- The move parser of both environments:
`re.search(r"\[(\w+)\]", action)` followed by `.lower()` on the captured
group; `none` models a failed search. -/
def parseAction (action : String) : Option String :=
  (findToken action.toList).map fun tok => String.mk (tok.map Char.toLower)

/-! ## Verdicts and outcomes -/

/-- The rejection reasons produced by the two validators (the code carries
them as message strings; the enumeration follows the spec's taxonomy). -/
inductive Reason where
  | badFormat
  | lengthViolation
  | startLetterViolation
  | alreadyUsed
  | notAWord
  | forbiddenLetters
deriving DecidableEq, Repr

/-- Result of validating one action. -/
inductive Verdict where
  | accepted (word : String)
  | rejected (r : Reason)
deriving DecidableEq, Repr

/-- Outcome of one call to `step`. -/
inductive Outcome where
  | cont
  | invalidMoveRecorded (player : Fin 2) (r : Reason) (triesUsed triesRemaining : Nat)
  | draw
  | win (winner : Fin 2)
deriving DecidableEq, Repr

/-- Whether an outcome ends the game. -/
def Outcome.isTerminal : Outcome → Bool
  | .draw => true
  | .win _ => true
  | _ => false

/-- The `tries_per_player` mapping `{0: ..., 1: ...}`. -/
structure Tries where
  p0 : Nat
  p1 : Nat
deriving DecidableEq, Repr

/-- Look up a player's try count. -/
def Tries.get (t : Tries) (p : Fin 2) : Nat :=
  if p = 0 then t.p0 else t.p1

/-- `tries_per_player[p] += 1`. -/
def Tries.incr (t : Tries) (p : Fin 2) : Tries :=
  if p = 0 then { t with p0 := t.p0 + 1 } else { t with p1 := t.p1 + 1 }

/-- The opponent `1 - current_player`. -/
def opponent (p : Fin 2) : Fin 2 := 1 - p

/-- Python `word[-1]` on the nonempty words these games handle (the
default is irrelevant: every parsed word is a nonempty token). -/
def lastChar (w : String) : Char := w.toList.getLastD 'a'

/-! ## SpellingBee environment -/

/-- Game state of `SpellingBeeEnv` (`self.state.game_state` plus the
framework's current player). `wordHistory` is newest-first. -/
structure SBState where
  allowedLetters : Finset Char
  wordHistory : List String
  tries : Tries
  playersWithValidMoves : Finset (Fin 2)
  currentPlayer : Fin 2
deriving DecidableEq

/-- The length test of `SpellingBeeEnv.step`:
`len(word_history) != 0 and len(word) < len(word_history[-1])`
(the history being stored newest-first here). -/
def sbTooShort (history : List String) (word : String) : Bool :=
  match history with
  | [] => false
  | last :: _ => word.length < last.length

/-- The validation chain of `SpellingBeeEnv.step` (lines 137-160): parse,
then length against `word_history[-1]`, repetition against `word_history`,
dictionary membership, allowed-letters subset — first failing check wins. -/
def sbValidate (vocab : String → Bool) (allowed : Finset Char)
    (history : List String) (action : String) : Verdict :=
  match parseAction action with
  | none => .rejected .badFormat
  | some word =>
    if sbTooShort history word then
      .rejected .lengthViolation
    else if word ∈ history then
      .rejected .alreadyUsed
    else if ¬ vocab word then
      .rejected .notAWord
    else if ¬ (word.toList.toFinset ⊆ allowed) then
      .rejected .forbiddenLetters
    else
      .accepted word

/-- One turn of `SpellingBeeEnv.step`: validate, then on a valid move mark
the player and append the word; on an invalid move increment the player's
try count and adjudicate against `max_tries`. -/
def sbStep (maxTries : Nat) (vocab : String → Bool) (s : SBState)
    (action : String) : SBState × Outcome :=
  match sbValidate vocab s.allowedLetters s.wordHistory action with
  | .accepted word =>
    ({ s with
        playersWithValidMoves := insert s.currentPlayer s.playersWithValidMoves,
        wordHistory := word :: s.wordHistory,
        currentPlayer := opponent s.currentPlayer }, .cont)
  | .rejected r =>
    let t := s.tries.incr s.currentPlayer
    let n := t.get s.currentPlayer
    if n > maxTries then
      if s.playersWithValidMoves.card = 2 then
        ({ s with tries := t }, .win (opponent s.currentPlayer))
      else
        ({ s with tries := t }, .draw)
    else
      ({ s with tries := t },
        .invalidMoveRecorded s.currentPlayer r n (maxTries - n))

/-- `SpellingBeeEnv.reset`'s game state, given the sampled allowed-letter
set. -/
def sbInit (allowed : Finset Char) : SBState :=
  { allowedLetters := allowed
    wordHistory := []
    tries := ⟨0, 0⟩
    playersWithValidMoves := ∅
    currentPlayer := 0 }

/-- States of a SpellingBee game reachable by stepping from a reset state
while the game is still ongoing (a terminal outcome ends the game). -/
inductive SBReach (maxTries : Nat) (vocab : String → Bool) : SBState → Prop where
  | init (allowed : Finset Char) : SBReach maxTries vocab (sbInit allowed)
  | step (s : SBState) (a : String) (h : SBReach maxTries vocab s)
      (hnt : (sbStep maxTries vocab s a).2.isTerminal = false) :
      SBReach maxTries vocab (sbStep maxTries vocab s a).1

/-- Configuration held by a `SpellingBeeEnv` instance. -/
structure SBEnv where
  numLetters : Nat
  maxTries : Nat
deriving DecidableEq, Repr

/-- `SpellingBeeEnv.__init__` stores `num_letters` and `max_tries` and
builds the dictionary; it performs no validation of `num_letters`, so
construction never raises a configuration error. -/
def sbConstruct (numLetters maxTries : Nat) : Except String SBEnv :=
  .ok ⟨numLetters, maxTries⟩

/-- `SpellingBeeEnv._generate_allowed_letters`: raises
`ValueError("num_letters cannot exceed 26.")` when `num_letters > 26`,
otherwise samples `num_letters` distinct letters without replacement (the
sampled set is a parameter here). -/
def generateAllowedLetters (numLetters : Nat) (sampled : Finset Char) :
    Except String (Finset Char) :=
  if numLetters > 26 then .error "num_letters cannot exceed 26."
  else .ok sampled

/-- `SpellingBeeEnv.reset`: generates the allowed letters (the point where
an oversized `num_letters` raises) and installs the fresh game state. -/
def sbReset (env : SBEnv) (sampled : Finset Char) : Except String SBState :=
  (generateAllowedLetters env.numLetters sampled).map sbInit

/-! ## WordChains environment -/

/-- Game state of `WordChainsEnv` (`self.state.game_state` plus the
framework's current player). The code keeps only the `used_words` set; the
spec's RoundState additionally carries the ordered `word_history`, tracked
here (newest-first, write-only for the game logic) so the
history/used-words invariant can be stated. -/
structure WCState where
  currentWord : String
  usedWords : Finset String
  requiredStartLetter : Char
  requiredLength : Nat
  tries : Tries
  playersWithValidMoves : Finset (Fin 2)
  currentPlayer : Fin 2
  wordHistory : List String
deriving DecidableEq

/-- The validation chain of `WordChainsEnv.step` (lines 122-145): parse,
then exact length against `required_length`, start letter against
`required_start_letter`, dictionary membership, repetition against
`used_words` — first failing check wins. -/
def wcValidate (vocab : String → Bool) (requiredStart : Char)
    (requiredLen : Nat) (used : Finset String) (action : String) : Verdict :=
  match parseAction action with
  | none => .rejected .badFormat
  | some word =>
    if word.length ≠ requiredLen then
      .rejected .lengthViolation
    else if ¬ (word.toList.head? = some requiredStart) then
      .rejected .startLetterViolation
    else if ¬ vocab word then
      .rejected .notAWord
    else if word ∈ used then
      .rejected .alreadyUsed
    else
      .accepted word

/-- One turn of `WordChainsEnv.step`: validate, then on a valid move mark
the player, add the word to `used_words` and advance the chain constraint
fields; on an invalid move increment the player's try count and adjudicate
against `max_tries`. -/
def wcStep (maxTries : Nat) (vocab : String → Bool) (s : WCState)
    (action : String) : WCState × Outcome :=
  match wcValidate vocab s.requiredStartLetter s.requiredLength s.usedWords action with
  | .accepted word =>
    ({ s with
        playersWithValidMoves := insert s.currentPlayer s.playersWithValidMoves,
        usedWords := insert word s.usedWords,
        currentWord := word,
        requiredStartLetter := Char.toLower (lastChar word),
        requiredLength := word.length + 1,
        currentPlayer := opponent s.currentPlayer,
        wordHistory := word :: s.wordHistory }, .cont)
  | .rejected r =>
    let t := s.tries.incr s.currentPlayer
    let n := t.get s.currentPlayer
    if n > maxTries then
      if s.playersWithValidMoves.card = 2 then
        ({ s with tries := t }, .win (opponent s.currentPlayer))
      else
        ({ s with tries := t }, .draw)
    else
      ({ s with tries := t },
        .invalidMoveRecorded s.currentPlayer r n (maxTries - n))

/-- `WordChainsEnv.reset`'s game state, given the randomly chosen seed word
(`random.choice` over the lowercased NLTK words of length at most 5). -/
def wcInit (seed : String) : WCState :=
  { currentWord := seed
    usedWords := {seed}
    requiredStartLetter := Char.toLower (lastChar seed)
    requiredLength := seed.length + 1
    tries := ⟨0, 0⟩
    playersWithValidMoves := ∅
    currentPlayer := 0
    wordHistory := [seed] }

/-- The chain-variant constraint-field invariant: the required length and
start letter always describe "one longer than the previous word, starting
with its last letter". Established by `reset` and maintained by `step`. -/
def ChainInv (s : WCState) : Prop :=
  s.requiredLength = s.currentWord.length + 1 ∧
  s.requiredStartLetter = Char.toLower (lastChar s.currentWord)

/-- States of a WordChains game reachable by stepping from a reset state
while the game is still ongoing. -/
inductive WCReach (maxTries : Nat) (vocab : String → Bool) : WCState → Prop where
  | init (seed : String) : WCReach maxTries vocab (wcInit seed)
  | step (s : WCState) (a : String) (h : WCReach maxTries vocab s)
      (hnt : (wcStep maxTries vocab s a).2.isTerminal = false) :
      WCReach maxTries vocab (wcStep maxTries vocab s a).1

/-! ## The spec's ordered-check pipeline

Claim C1 describes both validators as one pipeline of checks applied in a
fixed priority order, the first failing check producing the rejection
reason.  The pipeline is formalised here directly from the claim's words
(parse failure first, then a list of checks scanned for its first
failure), to be compared with the validators embedded from the source. -/

/-- First failure of an ordered list of checks. -/
def firstRejection : List (Option Reason) → Option Reason
  | [] => none
  | none :: rest => firstRejection rest
  | some r :: _ => some r

/-- Run the first-failing-check pipeline on an action: a parse failure is
`badFormat`, otherwise the first failing check on the parsed word decides,
and a word failing no check is accepted. -/
def pipelineValidate (checks : String → List (Option Reason))
    (action : String) : Verdict :=
  match parseAction action with
  | none => .rejected .badFormat
  | some word =>
    match firstRejection (checks word) with
    | some r => .rejected r
    | none => .accepted word

/-- Letter-variant length check as one pipeline stage. -/
def sbLengthCheck (history : List String) (word : String) : Option Reason :=
  if sbTooShort history word then some .lengthViolation else none

/-- Repetition check against an ordered history, as one pipeline stage. -/
def repetitionCheckList (history : List String) (word : String) : Option Reason :=
  if word ∈ history then some .alreadyUsed else none

/-- Repetition check against a used-words set, as one pipeline stage. -/
def repetitionCheckSet (used : Finset String) (word : String) : Option Reason :=
  if word ∈ used then some .alreadyUsed else none

/-- Vocabulary-membership check as one pipeline stage. -/
def vocabCheck (vocab : String → Bool) (word : String) : Option Reason :=
  if vocab word then none else some .notAWord

/-- Letter-variant allowed-letters check as one pipeline stage. -/
def sbLetterCheck (allowed : Finset Char) (word : String) : Option Reason :=
  if word.toList.toFinset ⊆ allowed then none else some .forbiddenLetters

/-- Chain-variant exact-length check as one pipeline stage. -/
def wcLengthCheck (requiredLen : Nat) (word : String) : Option Reason :=
  if word.length ≠ requiredLen then some .lengthViolation else none

/-- Chain-variant start-letter check as one pipeline stage. -/
def wcStartCheck (requiredStart : Char) (word : String) : Option Reason :=
  if word.toList.head? = some requiredStart then none
  else some .startLetterViolation

/-- The check order claim C1 states for the letter-constrained variant:
parse, variant length constraint, repetition, vocabulary, variant letter
constraint. -/
def sbClaimOrderValidate (vocab : String → Bool) (allowed : Finset Char)
    (history : List String) (action : String) : Verdict :=
  pipelineValidate (fun word =>
    [sbLengthCheck history word, repetitionCheckList history word,
     vocabCheck vocab word, sbLetterCheck allowed word]) action

/-- The check order claim C1 states for the chain variant: parse, the
variant's length/position constraints (exact length and start letter),
repetition, vocabulary.  (The trailing letter/character slot has no chain
analogue; placing the start-letter check there instead would diverge from
the code on even more inputs.) -/
def wcClaimOrderValidate (vocab : String → Bool) (requiredStart : Char)
    (requiredLen : Nat) (used : Finset String) (action : String) : Verdict :=
  pipelineValidate (fun word =>
    [wcLengthCheck requiredLen word, wcStartCheck requiredStart word,
     repetitionCheckSet used word, vocabCheck vocab word]) action

/-- The chain validator's actual check order: parse, exact length, start
letter, vocabulary, and repetition last. -/
def wcCodeOrderValidate (vocab : String → Bool) (requiredStart : Char)
    (requiredLen : Nat) (used : Finset String) (action : String) : Verdict :=
  pipelineValidate (fun word =>
    [wcLengthCheck requiredLen word, wcStartCheck requiredStart word,
     vocabCheck vocab word, repetitionCheckSet used word]) action

/-! ## Helper lemmas -/

theorem Tries.get_incr_self (t : Tries) (p : Fin 2) :
    (t.incr p).get p = t.get p + 1 := by
  unfold Tries.incr Tries.get
  split_ifs with h <;> simp

theorem Tries.get_incr_of_ne (t : Tries) (p q : Fin 2) (h : q ≠ p) :
    (t.incr p).get q = t.get q := by
  fin_cases p <;> fin_cases q <;> simp_all [Tries.incr, Tries.get]

theorem playersCard_le_two (s : Finset (Fin 2)) : s.card ≤ 2 := by
  simpa using Finset.card_le_univ s

/-! ## Step characterisation lemmas -/

theorem sbStep_of_accepted (maxTries : Nat) (vocab : String → Bool)
    (s : SBState) (a : String) (word : String)
    (h : sbValidate vocab s.allowedLetters s.wordHistory a = .accepted word) :
    sbStep maxTries vocab s a =
      ({ s with
          playersWithValidMoves := insert s.currentPlayer s.playersWithValidMoves,
          wordHistory := word :: s.wordHistory,
          currentPlayer := opponent s.currentPlayer }, .cont) := by
  simp [sbStep, h]

theorem sbStep_of_rejected_fst (maxTries : Nat) (vocab : String → Bool)
    (s : SBState) (a : String) (r : Reason)
    (h : sbValidate vocab s.allowedLetters s.wordHistory a = .rejected r) :
    (sbStep maxTries vocab s a).1 = { s with tries := s.tries.incr s.currentPlayer } := by
  simp only [sbStep, h]
  split_ifs <;> rfl

theorem sbStep_of_rejected_snd (maxTries : Nat) (vocab : String → Bool)
    (s : SBState) (a : String) (r : Reason)
    (h : sbValidate vocab s.allowedLetters s.wordHistory a = .rejected r) :
    (sbStep maxTries vocab s a).2 =
      (if maxTries < s.tries.get s.currentPlayer + 1 then
        (if s.playersWithValidMoves.card = 2 then
          Outcome.win (opponent s.currentPlayer)
         else Outcome.draw)
       else
        Outcome.invalidMoveRecorded s.currentPlayer r
          (s.tries.get s.currentPlayer + 1)
          (maxTries - (s.tries.get s.currentPlayer + 1))) := by
  simp only [sbStep, h, Tries.get_incr_self, gt_iff_lt]
  split_ifs <;> rfl

theorem wcStep_of_accepted (maxTries : Nat) (vocab : String → Bool)
    (s : WCState) (a : String) (word : String)
    (h : wcValidate vocab s.requiredStartLetter s.requiredLength s.usedWords a
          = .accepted word) :
    wcStep maxTries vocab s a =
      ({ s with
          playersWithValidMoves := insert s.currentPlayer s.playersWithValidMoves,
          usedWords := insert word s.usedWords,
          currentWord := word,
          requiredStartLetter := Char.toLower (lastChar word),
          requiredLength := word.length + 1,
          currentPlayer := opponent s.currentPlayer,
          wordHistory := word :: s.wordHistory }, .cont) := by
  simp [wcStep, h]

theorem wcStep_of_rejected_fst (maxTries : Nat) (vocab : String → Bool)
    (s : WCState) (a : String) (r : Reason)
    (h : wcValidate vocab s.requiredStartLetter s.requiredLength s.usedWords a
          = .rejected r) :
    (wcStep maxTries vocab s a).1 = { s with tries := s.tries.incr s.currentPlayer } := by
  simp only [wcStep, h]
  split_ifs <;> rfl

theorem wcStep_of_rejected_snd (maxTries : Nat) (vocab : String → Bool)
    (s : WCState) (a : String) (r : Reason)
    (h : wcValidate vocab s.requiredStartLetter s.requiredLength s.usedWords a
          = .rejected r) :
    (wcStep maxTries vocab s a).2 =
      (if maxTries < s.tries.get s.currentPlayer + 1 then
        (if s.playersWithValidMoves.card = 2 then
          Outcome.win (opponent s.currentPlayer)
         else Outcome.draw)
       else
        Outcome.invalidMoveRecorded s.currentPlayer r
          (s.tries.get s.currentPlayer + 1)
          (maxTries - (s.tries.get s.currentPlayer + 1))) := by
  simp only [wcStep, h, Tries.get_incr_self, gt_iff_lt]
  split_ifs <;> rfl

theorem sbValidate_accepted_facts (vocab : String → Bool) (allowed : Finset Char)
    (history : List String) (a word : String)
    (h : sbValidate vocab allowed history a = .accepted word) :
    parseAction a = some word ∧ word ∉ history ∧ vocab word = true ∧
      word.toList.toFinset ⊆ allowed ∧
      ∀ last, history.head? = some last → last.length ≤ word.length := by
  unfold sbValidate at h
  split at h
  · cases h
  · rename_i w hp
    split_ifs at h with h1 h2 h3 h4
    injection h with hw
    subst hw
    refine ⟨hp, h2, h3, h4, ?_⟩
    intro last hl
    cases history with
    | nil => cases hl
    | cons l rest =>
      injection hl with hl'
      subst hl'
      simp [sbTooShort] at h1
      omega

theorem wcValidate_accepted_facts (vocab : String → Bool) (requiredStart : Char)
    (requiredLen : Nat) (used : Finset String) (a word : String)
    (h : wcValidate vocab requiredStart requiredLen used a = .accepted word) :
    parseAction a = some word ∧ word.length = requiredLen ∧
      word.toList.head? = some requiredStart ∧ vocab word = true ∧
      word ∉ used := by
  unfold wcValidate at h
  split at h
  · cases h
  · rename_i w hp
    split_ifs at h with h1 h2 h3 h4
    injection h with hw
    subst hw
    exact ⟨hp, not_not.mp h1, h2, h3, h4⟩

/-! ## Reachability invariants -/

theorem sbReach_tries_le (maxTries : Nat) (vocab : String → Bool)
    (s : SBState) (h : SBReach maxTries vocab s) (p : Fin 2) :
    s.tries.get p ≤ maxTries := by
  induction h with
  | init allowed => simp [sbInit, Tries.get]
  | step s a hr hnt ih =>
    cases hv : sbValidate vocab s.allowedLetters s.wordHistory a with
    | accepted w =>
      rw [sbStep_of_accepted _ _ _ _ _ hv]
      simpa using ih
    | rejected r =>
      rw [sbStep_of_rejected_snd _ _ _ _ _ hv] at hnt
      rw [sbStep_of_rejected_fst _ _ _ _ _ hv]
      by_cases hn : maxTries < s.tries.get s.currentPlayer + 1
      · rw [if_pos hn] at hnt
        split_ifs at hnt <;> simp [Outcome.isTerminal] at hnt
      · by_cases hq : p = s.currentPlayer
        · subst hq
          simp only [Tries.get_incr_self]
          omega
        · simpa only [Tries.get_incr_of_ne _ _ _ hq] using ih

theorem wcReach_tries_le (maxTries : Nat) (vocab : String → Bool)
    (s : WCState) (h : WCReach maxTries vocab s) (p : Fin 2) :
    s.tries.get p ≤ maxTries := by
  induction h with
  | init seed => simp [wcInit, Tries.get]
  | step s a hr hnt ih =>
    cases hv : wcValidate vocab s.requiredStartLetter s.requiredLength s.usedWords a with
    | accepted w =>
      rw [wcStep_of_accepted _ _ _ _ _ hv]
      simpa using ih
    | rejected r =>
      rw [wcStep_of_rejected_snd _ _ _ _ _ hv] at hnt
      rw [wcStep_of_rejected_fst _ _ _ _ _ hv]
      by_cases hn : maxTries < s.tries.get s.currentPlayer + 1
      · rw [if_pos hn] at hnt
        split_ifs at hnt <;> simp [Outcome.isTerminal] at hnt
      · by_cases hq : p = s.currentPlayer
        · subst hq
          simp only [Tries.get_incr_self]
          omega
        · simpa only [Tries.get_incr_of_ne _ _ _ hq] using ih

theorem sbReach_nodup (maxTries : Nat) (vocab : String → Bool)
    (s : SBState) (h : SBReach maxTries vocab s) : s.wordHistory.Nodup := by
  induction h with
  | init allowed => simp [sbInit]
  | step s a hr hnt ih =>
    cases hv : sbValidate vocab s.allowedLetters s.wordHistory a with
    | accepted w =>
      rw [sbStep_of_accepted _ _ _ _ _ hv]
      have hw := (sbValidate_accepted_facts _ _ _ _ _ hv).2.1
      simpa using ⟨hw, ih⟩
    | rejected r =>
      rw [sbStep_of_rejected_fst _ _ _ _ _ hv]
      simpa using ih

theorem wcReach_used_eq_history (maxTries : Nat) (vocab : String → Bool)
    (s : WCState) (h : WCReach maxTries vocab s) :
    s.usedWords = s.wordHistory.toFinset ∧ s.wordHistory.Nodup := by
  induction h with
  | init seed => constructor <;> simp [wcInit]
  | step s a hr hnt ih =>
    obtain ⟨hu, hn⟩ := ih
    cases hv : wcValidate vocab s.requiredStartLetter s.requiredLength s.usedWords a with
    | accepted w =>
      rw [wcStep_of_accepted _ _ _ _ _ hv]
      have hw : w ∉ s.usedWords := (wcValidate_accepted_facts _ _ _ _ _ _ hv).2.2.2.2
      rw [hu] at hw
      constructor
      · simp [hu]
      · simpa using ⟨by simpa using hw, hn⟩
    | rejected r =>
      rw [wcStep_of_rejected_fst _ _ _ _ _ hv]
      simpa using ⟨hu, hn⟩

/-! ## Claims -/

/-- Claim C8: on every `Accepted` verdict in either variant, the current
player's try count is left unchanged (never reset to zero): it is a
cumulative counter of that player's invalid attempts across the whole
game. -/
theorem spiral_c8_tries_kept_on_accept :
    (∀ (maxTries : Nat) (vocab : String → Bool) (s : SBState) (a word : String),
       sbValidate vocab s.allowedLetters s.wordHistory a = .accepted word →
       (sbStep maxTries vocab s a).1.tries = s.tries) ∧
    (∀ (maxTries : Nat) (vocab : String → Bool) (s : WCState) (a word : String),
       wcValidate vocab s.requiredStartLetter s.requiredLength s.usedWords a
         = .accepted word →
       (wcStep maxTries vocab s a).1.tries = s.tries) := by
  constructor
  · intro mt vocab s a word h
    rw [sbStep_of_accepted _ _ _ _ _ h]
  · intro mt vocab s a word h
    rw [wcStep_of_accepted _ _ _ _ _ h]

/-- Claim C8 witness: the accepted moves of the spec's scenarios A and C
leave both try counters at zero. -/
theorem spiral_c8_witness :
    (sbStep 2 (fun w => w = "apple") (sbInit {'a', 'e', 'l', 'p', 't'}) "[apple]").1.tries
      = (sbInit {'a', 'e', 'l', 'p', 't'}).tries ∧
    (wcStep 2 (fun w => w = "turn") (wcInit "cat") "[turn]").1.tries
      = (wcInit "cat").tries := by
  exact ⟨spiral_c8_tries_kept_on_accept.1 2 _ _ "[apple]" "apple" (by decide),
         spiral_c8_tries_kept_on_accept.2 2 _ _ "[turn]" "turn" (by decide)⟩

/-- Claim C9: on any rejected candidate in either variant, the only
game-state field mutated is the current player's try count, incremented by
exactly 1; history / used words, the constraint fields, the valid-movers
set and the current player are all unchanged. -/
theorem spiral_c9_reject_frame :
    (∀ (maxTries : Nat) (vocab : String → Bool) (s : SBState) (a : String) (r : Reason),
       sbValidate vocab s.allowedLetters s.wordHistory a = .rejected r →
       (sbStep maxTries vocab s a).1 = { s with tries := s.tries.incr s.currentPlayer } ∧
       (sbStep maxTries vocab s a).1.tries.get s.currentPlayer
         = s.tries.get s.currentPlayer + 1) ∧
    (∀ (maxTries : Nat) (vocab : String → Bool) (s : WCState) (a : String) (r : Reason),
       wcValidate vocab s.requiredStartLetter s.requiredLength s.usedWords a
         = .rejected r →
       (wcStep maxTries vocab s a).1 = { s with tries := s.tries.incr s.currentPlayer } ∧
       (wcStep maxTries vocab s a).1.tries.get s.currentPlayer
         = s.tries.get s.currentPlayer + 1) := by
  constructor
  · intro mt vocab s a r h
    rw [sbStep_of_rejected_fst _ _ _ _ _ h]
    exact ⟨rfl, Tries.get_incr_self _ _⟩
  · intro mt vocab s a r h
    rw [wcStep_of_rejected_fst _ _ _ _ _ h]
    exact ⟨rfl, Tries.get_incr_self _ _⟩

/-- Claim C9 witness: a malformed action against a fresh game of either
variant changes nothing but the mover's try count. -/
theorem spiral_c9_witness :
    (sbStep 2 (fun _ => false) (sbInit {'a'}) "oops").1
      = { sbInit {'a'} with tries := ⟨1, 0⟩ } ∧
    (wcStep 2 (fun _ => false) (wcInit "cat") "oops").1
      = { wcInit "cat" with tries := ⟨1, 0⟩ } := by
  constructor
  · have h := (spiral_c9_reject_frame.1 2 (fun _ => false) (sbInit {'a'}) "oops"
      .badFormat (by decide)).1
    rw [h]; decide
  · have h := (spiral_c9_reject_frame.2 2 (fun _ => false) (wcInit "cat") "oops"
      .badFormat (by decide)).1
    rw [h]; decide

/-- Claim C10: a bracketed token containing digits or underscores (such as
`[a_1]`) is extracted by the parser of both variants (Python word
characters include digits and the underscore), so the input is not a
format failure: validation proceeds to the later checks (here reaching the
vocabulary check). -/
theorem spiral_c10_word_chars :
    parseAction "[a_1]" = some "a_1" ∧
    sbValidate (fun _ => false) {'a'} [] "[a_1]" = .rejected .notAWord ∧
    sbValidate (fun _ => false) {'a'} [] "[a_1]" ≠ .rejected .badFormat ∧
    wcValidate (fun _ => false) 'a' 3 ∅ "[a_1]" = .rejected .notAWord ∧
    wcValidate (fun _ => false) 'a' 3 ∅ "[a_1]" ≠ .rejected .badFormat := by
  decide

/-- Claim C5: in the letter-constrained variant an accepted word's
character set (duplicates collapsed) is a subset of the allowed-letter
set and its length is at least the most recently accepted word's length;
with an empty history the length check can never be the rejection. -/
theorem spiral_c5_letter_variant_constraints :
    (∀ (vocab : String → Bool) (allowed : Finset Char) (history : List String)
       (a word : String),
       sbValidate vocab allowed history a = .accepted word →
       word.toList.toFinset ⊆ allowed ∧
       ∀ last, history.head? = some last → last.length ≤ word.length) ∧
    (∀ (vocab : String → Bool) (allowed : Finset Char) (a : String),
       sbValidate vocab allowed [] a ≠ .rejected .lengthViolation) := by
  constructor
  · intro vocab allowed history a word h
    have hf := sbValidate_accepted_facts _ _ _ _ _ h
    exact ⟨hf.2.2.2.1, hf.2.2.2.2⟩
  · intro vocab allowed a h
    unfold sbValidate at h
    split at h
    · simp at h
    · rename_i w hp
      split_ifs at h with h1 h2 h3 h4 <;> simp_all [sbTooShort]

/-- Claim C5 witness: scenario A — allowed letters a,e,l,p,t, empty
history, accepted word "apple". -/
theorem spiral_c5_witness :
    ("apple".toList.toFinset ⊆ ({'a', 'e', 'l', 'p', 't'} : Finset Char)) ∧
    sbValidate (fun w => w = "zebra") {'a', 'e', 'l', 'p', 't'} [] "[]"
      ≠ .rejected .lengthViolation := by
  constructor
  · exact ((spiral_c5_letter_variant_constraints.1 (fun w => w = "apple")
      {'a', 'e', 'l', 'p', 't'} [] "[apple]" "apple" (by decide)).1)
  · exact spiral_c5_letter_variant_constraints.2 (fun w => w = "zebra")
      {'a', 'e', 'l', 'p', 't'} "[]"

/-- Claim C2: in either variant, when a rejection pushes the current
player's try count past `max_tries`, the turn is terminal: the outcome is
a draw when fewer than 2 players have an accepted move at that moment, and
otherwise a decisive win for the other player. -/
theorem spiral_c2_terminal_rejection :
    (∀ (maxTries : Nat) (vocab : String → Bool) (s : SBState) (a : String) (r : Reason),
       sbValidate vocab s.allowedLetters s.wordHistory a = .rejected r →
       maxTries < s.tries.get s.currentPlayer + 1 →
       (sbStep maxTries vocab s a).2 =
         (if s.playersWithValidMoves.card < 2 then Outcome.draw
          else Outcome.win (opponent s.currentPlayer)) ∧
       (sbStep maxTries vocab s a).2.isTerminal = true) ∧
    (∀ (maxTries : Nat) (vocab : String → Bool) (s : WCState) (a : String) (r : Reason),
       wcValidate vocab s.requiredStartLetter s.requiredLength s.usedWords a
         = .rejected r →
       maxTries < s.tries.get s.currentPlayer + 1 →
       (wcStep maxTries vocab s a).2 =
         (if s.playersWithValidMoves.card < 2 then Outcome.draw
          else Outcome.win (opponent s.currentPlayer)) ∧
       (wcStep maxTries vocab s a).2.isTerminal = true) := by
  constructor
  · intro mt vocab s a r hv hn
    rw [sbStep_of_rejected_snd _ _ _ _ _ hv, if_pos hn]
    have hle := playersCard_le_two s.playersWithValidMoves
    by_cases hc : s.playersWithValidMoves.card < 2
    · rw [if_neg (by omega), if_pos hc]
      exact ⟨rfl, rfl⟩
    · rw [if_pos (by omega), if_neg hc]
      exact ⟨rfl, rfl⟩
  · intro mt vocab s a r hv hn
    rw [wcStep_of_rejected_snd _ _ _ _ _ hv, if_pos hn]
    have hle := playersCard_le_two s.playersWithValidMoves
    by_cases hc : s.playersWithValidMoves.card < 2
    · rw [if_neg (by omega), if_pos hc]
      exact ⟨rfl, rfl⟩
    · rw [if_pos (by omega), if_neg hc]
      exact ⟨rfl, rfl⟩

/-- Claim C2 witness: a first-round exhaustion draws (spelling variant,
no player has a valid move yet) and a post-first-round exhaustion hands
the win to the opponent (chain variant, both players have moved). -/
theorem spiral_c2_witness :
    (sbStep 2 (fun _ => false) ⟨{'a'}, [], ⟨2, 0⟩, ∅, 0⟩ "oops").2 = Outcome.draw ∧
    (wcStep 2 (fun _ => false) ⟨"cat", {"cat"}, 't', 4, ⟨0, 2⟩, {0, 1}, 1, ["cat"]⟩
        "oops").2 = Outcome.win 0 := by
  constructor
  · rw [(spiral_c2_terminal_rejection.1 2 (fun _ => false) ⟨{'a'}, [], ⟨2, 0⟩, ∅, 0⟩
      "oops" Reason.badFormat (by decide) (by decide)).1]
    decide
  · rw [(spiral_c2_terminal_rejection.2 2 (fun _ => false)
      ⟨"cat", {"cat"}, 't', 4, ⟨0, 2⟩, {0, 1}, 1, ["cat"]⟩
      "oops" Reason.badFormat (by decide) (by decide)).1]
    decide

/-- Claim C3: in either variant, starting from any reachable state, a
player's try count is at most `max_tries`; a rejection with tries still
below the limit yields `InvalidMoveRecorded` carrying
`max_tries - tries_used` remaining tries, a rejection at the limit is
terminal on the same turn, and after any step no try count exceeds
`max_tries + 1`. -/
theorem spiral_c3_try_limit_accounting :
    (∀ (maxTries : Nat) (vocab : String → Bool) (s : SBState),
       SBReach maxTries vocab s →
       (∀ p, s.tries.get p ≤ maxTries) ∧
       (∀ a r, sbValidate vocab s.allowedLetters s.wordHistory a = .rejected r →
          (∀ p, (sbStep maxTries vocab s a).1.tries.get p ≤ maxTries + 1) ∧
          (s.tries.get s.currentPlayer < maxTries →
            (sbStep maxTries vocab s a).2 =
              Outcome.invalidMoveRecorded s.currentPlayer r
                (s.tries.get s.currentPlayer + 1)
                (maxTries - (s.tries.get s.currentPlayer + 1))) ∧
          (s.tries.get s.currentPlayer = maxTries →
            (sbStep maxTries vocab s a).2.isTerminal = true))) ∧
    (∀ (maxTries : Nat) (vocab : String → Bool) (s : WCState),
       WCReach maxTries vocab s →
       (∀ p, s.tries.get p ≤ maxTries) ∧
       (∀ a r, wcValidate vocab s.requiredStartLetter s.requiredLength s.usedWords a
            = .rejected r →
          (∀ p, (wcStep maxTries vocab s a).1.tries.get p ≤ maxTries + 1) ∧
          (s.tries.get s.currentPlayer < maxTries →
            (wcStep maxTries vocab s a).2 =
              Outcome.invalidMoveRecorded s.currentPlayer r
                (s.tries.get s.currentPlayer + 1)
                (maxTries - (s.tries.get s.currentPlayer + 1))) ∧
          (s.tries.get s.currentPlayer = maxTries →
            (wcStep maxTries vocab s a).2.isTerminal = true))) := by
  constructor
  · intro mt vocab s hr
    refine ⟨sbReach_tries_le _ _ _ hr, ?_⟩
    intro a r hv
    refine ⟨?_, ?_, ?_⟩
    · intro p
      rw [sbStep_of_rejected_fst _ _ _ _ _ hv]
      show (s.tries.incr s.currentPlayer).get p ≤ mt + 1
      by_cases hq : p = s.currentPlayer
      · subst hq
        rw [Tries.get_incr_self]
        have := sbReach_tries_le _ _ _ hr s.currentPlayer
        omega
      · rw [Tries.get_incr_of_ne _ _ _ hq]
        have := sbReach_tries_le _ _ _ hr p
        omega
    · intro hlt
      rw [sbStep_of_rejected_snd _ _ _ _ _ hv, if_neg (by omega)]
    · intro heq
      rw [sbStep_of_rejected_snd _ _ _ _ _ hv, if_pos (by omega)]
      split_ifs <;> rfl
  · intro mt vocab s hr
    refine ⟨wcReach_tries_le _ _ _ hr, ?_⟩
    intro a r hv
    refine ⟨?_, ?_, ?_⟩
    · intro p
      rw [wcStep_of_rejected_fst _ _ _ _ _ hv]
      show (s.tries.incr s.currentPlayer).get p ≤ mt + 1
      by_cases hq : p = s.currentPlayer
      · subst hq
        rw [Tries.get_incr_self]
        have := wcReach_tries_le _ _ _ hr s.currentPlayer
        omega
      · rw [Tries.get_incr_of_ne _ _ _ hq]
        have := wcReach_tries_le _ _ _ hr p
        omega
    · intro hlt
      rw [wcStep_of_rejected_snd _ _ _ _ _ hv, if_neg (by omega)]
    · intro heq
      rw [wcStep_of_rejected_snd _ _ _ _ _ hv, if_pos (by omega)]
      split_ifs <;> rfl

/-- Claim C3 witness: a first rejection at a fresh game of either variant
(`max_tries = 2`) records an invalid move with one try used and one
remaining try short of the limit. -/
theorem spiral_c3_witness :
    (sbStep 2 (fun _ => false) (sbInit {'a'}) "oops").2
      = Outcome.invalidMoveRecorded 0 Reason.badFormat 1 1 ∧
    (wcStep 2 (fun _ => false) (wcInit "cat") "oops").2
      = Outcome.invalidMoveRecorded 0 Reason.badFormat 1 1 := by
  constructor
  · have h := (((spiral_c3_try_limit_accounting.1 2 (fun _ => false) (sbInit {'a'})
      (SBReach.init {'a'})).2 "oops" Reason.badFormat (by decide)).2.1 (by decide))
    rw [h]; decide
  · have h := (((spiral_c3_try_limit_accounting.2 2 (fun _ => false) (wcInit "cat")
      (WCReach.init "cat")).2 "oops" Reason.badFormat (by decide)).2.1 (by decide))
    rw [h]; decide

/-- Claim C4: in the chain variant, reset establishes and every accepted
move maintains the constraint invariant (required length is the previous
word's length plus one, required start letter is its last character); an
accepted word is therefore exactly one longer than the previous word and
starts with its last character, and acceptance advances the required
length and start letter to the accepted word's length plus one and its
last character. -/
theorem spiral_c4_chain_accept :
    (∀ seed : String, ChainInv (wcInit seed)) ∧
    (∀ (maxTries : Nat) (vocab : String → Bool) (s : WCState) (a word : String),
       ChainInv s →
       wcValidate vocab s.requiredStartLetter s.requiredLength s.usedWords a
         = .accepted word →
       word.length = s.currentWord.length + 1 ∧
       word.toList.head? = some (Char.toLower (lastChar s.currentWord)) ∧
       (wcStep maxTries vocab s a).1.requiredLength = word.length + 1 ∧
       (wcStep maxTries vocab s a).1.requiredStartLetter
         = Char.toLower (lastChar word) ∧
       ChainInv (wcStep maxTries vocab s a).1) := by
  constructor
  · intro seed
    exact ⟨rfl, rfl⟩
  · intro mt vocab s a word hinv hv
    obtain ⟨hlen, hstart⟩ := hinv
    obtain ⟨hp, hL, hS, hV, hU⟩ := wcValidate_accepted_facts _ _ _ _ _ _ hv
    rw [wcStep_of_accepted _ _ _ _ _ hv]
    refine ⟨by rw [← hlen]; exact hL, by rw [← hstart]; exact hS, rfl, rfl, rfl, rfl⟩

/-- Claim C4 witness: scenario C — seed "cat" (required length 4, start
letter 't'), accepted word "turn" yields required length 5 and start
letter 'n'. -/
theorem spiral_c4_witness :
    (wcStep 2 (fun w => w = "turn") (wcInit "cat") "[turn]").1.requiredLength = 5 ∧
    (wcStep 2 (fun w => w = "turn") (wcInit "cat") "[turn]").1.requiredStartLetter
      = 'n' ∧
    "turn".length = "cat".length + 1 := by
  have h := spiral_c4_chain_accept.2 2 (fun w => w = "turn") (wcInit "cat")
    "[turn]" "turn" (spiral_c4_chain_accept.1 "cat") (by decide)
  refine ⟨?_, ?_, by decide⟩
  · rw [h.2.2.1]; decide
  · rw [h.2.2.2.1]; decide

/-- Claim C6: at every reachable turn boundary the ordered history of
accepted words has no duplicates and agrees with the used-words set: in
the spelling variant (where the history list itself is the repetition
structure) its set form has the history's length, and in the chain
variant `used_words` equals the set form of the history and has its
length. -/
theorem spiral_c6_history_set_agreement :
    (∀ (maxTries : Nat) (vocab : String → Bool) (s : SBState),
       SBReach maxTries vocab s →
       s.wordHistory.Nodup ∧ s.wordHistory.toFinset.card = s.wordHistory.length) ∧
    (∀ (maxTries : Nat) (vocab : String → Bool) (s : WCState),
       WCReach maxTries vocab s →
       s.usedWords = s.wordHistory.toFinset ∧ s.wordHistory.Nodup ∧
       s.usedWords.card = s.wordHistory.length) := by
  constructor
  · intro mt vocab s hr
    have hn := sbReach_nodup _ _ _ hr
    exact ⟨hn, List.toFinset_card_of_nodup hn⟩
  · intro mt vocab s hr
    obtain ⟨he, hn⟩ := wcReach_used_eq_history _ _ _ hr
    exact ⟨he, hn, by rw [he, List.toFinset_card_of_nodup hn]⟩

/-- Claim C6 witness: after scenario A's accepted "apple" the spelling
history is duplicate-free, and after scenario C's accepted "turn" the
chain used-words set is exactly the set of the two chain words. -/
theorem spiral_c6_witness :
    (sbStep 2 (fun w => w = "apple") (sbInit {'a', 'e', 'l', 'p', 't'})
        "[apple]").1.wordHistory.Nodup ∧
    (wcStep 2 (fun w => w = "turn") (wcInit "cat") "[turn]").1.usedWords
      = (wcStep 2 (fun w => w = "turn") (wcInit "cat") "[turn]").1.wordHistory.toFinset := by
  constructor
  · exact (spiral_c6_history_set_agreement.1 2 (fun w => w = "apple")
      _ (SBReach.step (sbInit {'a', 'e', 'l', 'p', 't'}) "[apple]"
        (SBReach.init {'a', 'e', 'l', 'p', 't'}) (by decide))).1
  · exact (spiral_c6_history_set_agreement.2 2 (fun w => w = "turn")
      _ (WCReach.step (wcInit "cat") "[turn]" (WCReach.init "cat") (by decide))).1

/-- Claim C7 counterexample: constructing the spelling environment with
`num_letters = 27` succeeds — `__init__` performs no validation, so no
configuration error is raised at construction. -/
theorem spiral_c7_counterexample :
    sbConstruct 27 2 = .ok ⟨27, 2⟩ := rfl

/-- Claim C7 (amended): construction always succeeds; the
`num_letters > 26` configuration error is raised when the environment is
reset (the allowed-letter generation step), and a reset with
`num_letters ≤ 26` installs the fresh game state without error. -/
theorem spiral_c7_config_error_at_reset :
    (∀ numLetters maxTries : Nat,
       sbConstruct numLetters maxTries = .ok ⟨numLetters, maxTries⟩) ∧
    (∀ (env : SBEnv) (sampled : Finset Char), 26 < env.numLetters →
       sbReset env sampled = .error "num_letters cannot exceed 26.") ∧
    (∀ (env : SBEnv) (sampled : Finset Char), env.numLetters ≤ 26 →
       sbReset env sampled = .ok (sbInit sampled)) := by
  refine ⟨fun n mt => rfl, ?_, ?_⟩
  · intro env sampled h
    unfold sbReset generateAllowedLetters
    rw [if_pos h]
    rfl
  · intro env sampled h
    unfold sbReset generateAllowedLetters
    rw [if_neg (by omega)]
    rfl

/-- Claim C7 witness: resetting with 27 letters raises the configuration
error; resetting with 5 letters succeeds. -/
theorem spiral_c7_witness :
    sbReset ⟨27, 2⟩ ∅ = .error "num_letters cannot exceed 26." ∧
    sbReset ⟨5, 2⟩ {'a'} = .ok (sbInit {'a'}) := by
  exact ⟨spiral_c7_config_error_at_reset.2.1 ⟨27, 2⟩ ∅ (by decide),
         spiral_c7_config_error_at_reset.2.2 ⟨5, 2⟩ {'a'} (by decide)⟩

/-- Claim C1 counterexample: in the chain variant the repetition check
runs after the vocabulary check, not before it. For a candidate that is
already used but not in the vocabulary (reachable only through the
validator's own state; the claim quantifies over every candidate), the
code rejects with the not-a-word reason while the claimed order rejects
with the already-used reason. -/
theorem spiral_c1_counterexample :
    wcValidate (fun _ => false) 'n' 5 {"nurse"} "[nurse]"
      = .rejected .notAWord ∧
    wcClaimOrderValidate (fun _ => false) 'n' 5 {"nurse"} "[nurse]"
      = .rejected .alreadyUsed ∧
    wcValidate (fun _ => false) 'n' 5 {"nurse"} "[nurse]"
      ≠ wcClaimOrderValidate (fun _ => false) 'n' 5 {"nurse"} "[nurse]" := by
  decide

/-- Claim C1 (amended): the letter-constrained variant applies its checks
in the claimed order (parse, length, repetition, vocabulary, letters),
but the chain variant applies parse, exact length, start letter,
vocabulary, and repetition last — its repetition check follows the
vocabulary check, with the first failing check still determining the
rejection reason. -/
theorem spiral_c1_check_order :
    (∀ (vocab : String → Bool) (allowed : Finset Char) (history : List String)
       (a : String),
       sbValidate vocab allowed history a = sbClaimOrderValidate vocab allowed history a) ∧
    (∀ (vocab : String → Bool) (requiredStart : Char) (requiredLen : Nat)
       (used : Finset String) (a : String),
       wcValidate vocab requiredStart requiredLen used a
         = wcCodeOrderValidate vocab requiredStart requiredLen used a) := by
  constructor
  · intro vocab allowed history a
    unfold sbValidate sbClaimOrderValidate pipelineValidate
    cases hp : parseAction a with
    | none => rfl
    | some word =>
      by_cases h1 : sbTooShort history word = true <;>
      by_cases h2 : word ∈ history <;>
      by_cases h3 : vocab word = true <;>
      by_cases h4 : word.toList.toFinset ⊆ allowed <;>
      simp_all [firstRejection, sbLengthCheck, repetitionCheckList,
        vocabCheck, sbLetterCheck]
  · intro vocab requiredStart requiredLen used a
    unfold wcValidate wcCodeOrderValidate pipelineValidate
    cases hp : parseAction a with
    | none => rfl
    | some word =>
      by_cases h1 : word.length = requiredLen <;>
      by_cases h2 : word.toList.head? = some requiredStart <;>
      by_cases h3 : vocab word = true <;>
      by_cases h4 : word ∈ used <;>
      simp_all [firstRejection, wcLengthCheck, wcStartCheck,
        vocabCheck, repetitionCheckSet]
